import Mathlib

set_option maxHeartbeats 1000000

/-!
Shallow embedding of the ascii-snake game (src/main.rs).

The Rust program keeps a `Game` struct with a `Vec<Vec<Tile>>` grid indexed
as `tiles[x][y]`, a current `Direction`, an `alive` flag, a snake `length`
and the head coordinates.  We model `i32` values by `Int` (no arithmetic in
the program approaches the `i32` range on the inputs the claims are about),
the grid by `List (List Tile)`, and the random draws of
`thread_rng().gen_range(0, w)` / `gen_range(0, h)` by an explicit list of
`(Nat, Nat)` pairs consumed by the food-spawning loop.  A loop that would
run forever (no draw ever hits an empty cell) is modelled by the spawn
function returning `none` for every finite draw list.
-/

/-- Rust `enum Direction`. -/
inductive Direction where
  | Up
  | Down
  | Left
  | Right
deriving DecidableEq, Repr

/-- Rust `Direction::opposite`. -/
def Direction.opposite : Direction → Direction
  | .Up => .Down
  | .Down => .Up
  | .Left => .Right
  | .Right => .Left

/-- Rust `enum Tile` (`SnakeVal` = `i32`, modelled by `Int`). -/
inductive Tile where
  | Empty
  | Food
  | Snake (val : Int)
deriving DecidableEq, Repr

/-- Rust `struct Game`.  `tiles` is indexed as `tiles[x][y]`. -/
structure Game where
  width : Int
  height : Int
  tiles : List (List Tile)
  direction : Direction
  alive : Bool
  length : Int
  head_x : Int
  head_y : Int
deriving DecidableEq, Repr

/-- Read `tiles[x][y]` (natural-number indices, as produced by `as usize`
on values the program has bounds-checked). -/
def Game.getTileN (g : Game) (x y : Nat) : Tile :=
  (g.tiles.getD x []).getD y Tile.Empty

/-- Read `tiles[x as usize][y as usize]`. -/
def Game.getTile (g : Game) (x y : Int) : Tile :=
  g.getTileN x.toNat y.toNat

/-- Write `tiles[x][y] = t` (natural-number indices). -/
def Game.setTileN (g : Game) (x y : Nat) (t : Tile) : Game :=
  { g with tiles := g.tiles.set x ((g.tiles.getD x []).set y t) }

/-- Write `tiles[x as usize][y as usize] = t`. -/
def Game.setTile (g : Game) (x y : Int) (t : Tile) : Game :=
  g.setTileN x.toNat y.toNat t

/-- Rust `Game::set_direction`.  The Rust method mutates `self` and returns
`Result<(), ()>`; we return the result value together with the new state. -/
def Game.set_direction (g : Game) (d : Direction) : Except Unit Unit × Game :=
  if d = g.direction.opposite then
    (Except.error (), g)
  else
    (Except.ok (), { g with direction := d })

/-- Rust `Game::spawn_food`: repeatedly draw a random coordinate until an
empty tile is hit, then mark it `Food`.  The infinite stream of draws is
modelled by a finite list; exhausting the list without a hit (the loop
would keep running) yields `none`. -/
def Game.spawn_food (g : Game) : List (Nat × Nat) → Option Game
  | [] => none
  | p :: rest =>
    if g.getTileN p.1 p.2 = Tile.Empty then
      some (g.setTileN p.1 p.2 Tile.Food)
    else
      g.spawn_food rest

/-- The head move at the top of `Game::update`. -/
def Game.moveHead (g : Game) : Game :=
  match g.direction with
  | .Up => { g with head_y := g.head_y - 1 }
  | .Down => { g with head_y := g.head_y + 1 }
  | .Left => { g with head_x := g.head_x - 1 }
  | .Right => { g with head_x := g.head_x + 1 }

/-- The out-of-bounds test of `Game::update`. -/
def Game.oob (g : Game) : Bool :=
  g.head_x < 0 || g.width ≤ g.head_x || g.head_y < 0 || g.height ≤ g.head_y

/-- One cell of the age/prune pass at the end of `Game::update`:
`Snake(val)` becomes `Empty` when `val >= length` and `Snake(val + 1)`
otherwise; other tiles are untouched. -/
def ageTile (length : Int) : Tile → Tile
  | .Snake val => if length ≤ val then Tile.Empty else Tile.Snake (val + 1)
  | t => t

/-- One column of the age/prune pass: the inner `for y in 0..height` loop.
`y` is the index of the first element of the remaining list. -/
def ageCol (length height : Int) (y : Nat) : List Tile → List Tile
  | [] => []
  | t :: rest =>
    (if (y : Int) < height then ageTile length t else t) ::
      ageCol length height (y + 1) rest

/-- The outer `for x in 0..width` loop of the age/prune pass. -/
def ageCols (length width height : Int) (x : Nat) :
    List (List Tile) → List (List Tile)
  | [] => []
  | col :: rest =>
    (if (x : Int) < width then ageCol length height 0 col else col) ::
      ageCols length width height (x + 1) rest

/-- The complete age/prune pass (step 4 of the tick). -/
def Game.agePass (g : Game) : Game :=
  { g with tiles := ageCols g.length g.width g.height 0 g.tiles }

/-- Rust `Game::update` (one tick), parametrised by the random draws that a
food spawn would consume.  `none` means the spawn loop found no empty tile
among the supplied draws (the Rust loop would not have returned). -/
def Game.update (g : Game) (draws : List (Nat × Nat)) : Option Game :=
  let g1 := g.moveHead
  if g1.oob then
    some { g1 with alive := false }
  else
    match g1.getTile g1.head_x g1.head_y with
    | Tile.Snake _ => some { g1 with alive := false }
    | Tile.Food =>
      let g2 := { g1 with length := g1.length + 1 }
      match g2.spawn_food draws with
      | none => none
      | some g3 => some ((g3.setTile g3.head_x g3.head_y (Tile.Snake 0)).agePass)
    | Tile.Empty =>
      some ((g1.setTile g1.head_x g1.head_y (Tile.Snake 0)).agePass)

/-- The state `Game::new` builds before its initial food spawn: all-empty
grid, direction `Up`, alive, length 3, head at the centre. -/
def Game.newBase (width height : Int) : Game :=
  { width := width
    height := height
    tiles := List.replicate width.toNat (List.replicate height.toNat Tile.Empty)
    direction := Direction.Up
    alive := true
    length := 3
    head_x := width / 2
    head_y := height / 2 }

/-- Rust `Game::new`: the freshly built state followed by the initial food
spawn. -/
def Game.new (width height : Int) (draws : List (Nat × Nat)) : Option Game :=
  (Game.newBase width height).spawn_food draws

/-- Well-formedness of a `Game` value as the Rust constructor establishes
it: the nested vectors have exactly `width` columns of `height` tiles. -/
def Game.wf (g : Game) : Prop :=
  0 ≤ g.width ∧ 0 ≤ g.height ∧ g.tiles.length = g.width.toNat ∧
    ∀ col ∈ g.tiles, col.length = g.height.toNat

instance (g : Game) : Decidable g.wf := by
  unfold Game.wf; infer_instance

/-- `true` on live snake segments. -/
def Tile.isSnakeB : Tile → Bool
  | .Snake _ => true
  | _ => false

/-- Count the tiles satisfying `p` over the whole grid. -/
def tilesCount (p : Tile → Bool) (tiles : List (List Tile)) : Nat :=
  (tiles.map (List.countP p)).sum

/-- Number of `Snake`-tagged cells. -/
def Game.snakeCount (g : Game) : Nat :=
  tilesCount Tile.isSnakeB g.tiles

/-- Number of `Food` cells. -/
def Game.foodCount (g : Game) : Nat :=
  tilesCount (fun t => decide (t = Tile.Food)) g.tiles

/-- `true` on snake segments whose age is below `L` (the segments the
age/prune pass keeps). -/
def Tile.youngSnake (L : Int) : Tile → Bool
  | .Snake v => decide (v < L)
  | _ => false

/-- `true` on snake segments whose age has reached `L` (the segments the
age/prune pass clears). -/
def Tile.oldSnake (L : Int) : Tile → Bool
  | .Snake v => decide (L ≤ v)
  | _ => false

/-- `true` unless the tile is a snake segment with age outside `[1, L]`. -/
def Tile.ageOk (L : Int) : Tile → Bool
  | .Snake v => decide (1 ≤ v ∧ v ≤ L)
  | _ => true

/-- The steady state the snake reaches once it has grown to fill its
initial length: `length` live segments, ages spanning `1..length` with
exactly one segment due for pruning. -/
def Game.steady (g : Game) : Prop :=
  1 ≤ g.length ∧ g.snakeCount = g.length.toNat ∧
    tilesCount (Tile.oldSnake g.length) g.tiles = 1 ∧
    ∀ col ∈ g.tiles, ∀ t ∈ col, Tile.ageOk g.length t = true

instance (g : Game) : Decidable g.steady := by
  unfold Game.steady; infer_instance

/-! ### Concrete states used as test inputs -/

/-- A small game about to hit the left wall. -/
def gWall : Game :=
  { width := 2, height := 2
    tiles := [[Tile.Empty, Tile.Empty], [Tile.Empty, Tile.Food]]
    direction := Direction.Left, alive := true, length := 3
    head_x := 0, head_y := 0 }

/-- A dead game whose grid is still open in front of the head. -/
def gDead : Game :=
  { width := 3, height := 3
    tiles := [[Tile.Empty, Tile.Empty, Tile.Empty],
              [Tile.Empty, Tile.Empty, Tile.Empty],
              [Tile.Food, Tile.Empty, Tile.Empty]]
    direction := Direction.Up, alive := false, length := 3
    head_x := 1, head_y := 2 }

/-- A 4×4 game in the steady state reached after a few unobstructed ticks:
snake ages 1, 2, 3 in the column x = 2, head on the age-1 cell, moving up
into an empty cell. -/
def gSteady : Game :=
  { width := 4, height := 4
    tiles := [[Tile.Food, Tile.Empty, Tile.Empty, Tile.Empty],
              [Tile.Empty, Tile.Empty, Tile.Empty, Tile.Empty],
              [Tile.Empty, Tile.Snake 1, Tile.Snake 2, Tile.Snake 3],
              [Tile.Empty, Tile.Empty, Tile.Empty, Tile.Empty]]
    direction := Direction.Up, alive := true, length := 3
    head_x := 2, head_y := 1 }

/-- The state `gSteady` reaches after one tick with no draws needed. -/
def gSteady2 : Game :=
  (gSteady.update []).getD gSteady

/-- The initial 16×16 game of the C8 scenario, with the food drawn onto
cell (0, 0). -/
def g16 : Game :=
  { width := 16, height := 16
    tiles :=
      (List.replicate 16 (List.replicate 16 Tile.Empty)).set 0
        ((List.replicate 16 Tile.Empty).set 0 Tile.Food)
    direction := Direction.Up, alive := true, length := 3
    head_x := 8, head_y := 8 }

/-- A 1×1 game whose grid holds no empty cell at all. -/
def gFull : Game :=
  { width := 1, height := 1
    tiles := [[Tile.Snake 1]]
    direction := Direction.Up, alive := true, length := 1
    head_x := 0, head_y := 0 }

/-- A 3×3 game whose head is about to move onto the food at (1, 1). -/
def gEat : Game :=
  { width := 3, height := 3
    tiles := [[Tile.Empty, Tile.Empty, Tile.Empty],
              [Tile.Empty, Tile.Food, Tile.Empty],
              [Tile.Empty, Tile.Empty, Tile.Empty]]
    direction := Direction.Up, alive := true, length := 3
    head_x := 1, head_y := 2 }

/-- The game produced by `Game.new 2 2` with the food drawn onto (0, 0). -/
def gNew2 : Game :=
  (Game.new 2 2 [(0, 0)]).getD gWall

/-! ### Basic preservation lemmas -/

theorem Game.moveHead_tiles (g : Game) : g.moveHead.tiles = g.tiles := by
  cases g with
  | mk w h t d a l hx hy => cases d <;> rfl

theorem Game.moveHead_width (g : Game) : g.moveHead.width = g.width := by
  cases g with
  | mk w h t d a l hx hy => cases d <;> rfl

theorem Game.moveHead_height (g : Game) : g.moveHead.height = g.height := by
  cases g with
  | mk w h t d a l hx hy => cases d <;> rfl

theorem Game.moveHead_direction (g : Game) : g.moveHead.direction = g.direction := by
  cases g with
  | mk w h t d a l hx hy => cases d <;> rfl

theorem Game.moveHead_alive (g : Game) : g.moveHead.alive = g.alive := by
  cases g with
  | mk w h t d a l hx hy => cases d <;> rfl

theorem Game.moveHead_length (g : Game) : g.moveHead.length = g.length := by
  cases g with
  | mk w h t d a l hx hy => cases d <;> rfl

theorem Game.spawn_food_spec (g : Game) :
    ∀ (draws : List (Nat × Nat)) (g' : Game),
      g.spawn_food draws = some g' →
      ∃ x y, (x, y) ∈ draws ∧ g.getTileN x y = Tile.Empty ∧
        g' = g.setTileN x y Tile.Food := by
  intro draws
  induction draws with
  | nil => intro g' h; simp [Game.spawn_food] at h
  | cons p rest ih =>
    intro g' h
    by_cases hp : g.getTileN p.1 p.2 = Tile.Empty
    · simp only [Game.spawn_food, hp, if_pos, Option.some.injEq] at h
      exact ⟨p.1, p.2, by simp, hp, h.symm⟩
    · simp only [Game.spawn_food, hp, if_neg, if_false] at h
      rcases ih g' h with ⟨x, y, hmem, hemp, heq⟩
      exact ⟨x, y, List.mem_cons_of_mem p hmem, hemp, heq⟩

theorem Game.spawn_food_of_hit (g : Game) :
    ∀ (draws : List (Nat × Nat)),
      (∃ p ∈ draws, g.getTileN p.1 p.2 = Tile.Empty) →
      ∃ g', g.spawn_food draws = some g' := by
  intro draws
  induction draws with
  | nil => rintro ⟨p, hp, _⟩; exact absurd hp (List.not_mem_nil p)
  | cons q rest ih =>
    rintro ⟨p, hp, hemp⟩
    by_cases hq : g.getTileN q.1 q.2 = Tile.Empty
    · exact ⟨g.setTileN q.1 q.2 Tile.Food, by simp only [Game.spawn_food, hq, if_pos]⟩
    · rcases List.mem_cons.mp hp with rfl | hp'
      · exact absurd hemp hq
      · rcases ih ⟨p, hp', hemp⟩ with ⟨g', hg'⟩
        exact ⟨g', by simp only [Game.spawn_food, hq, if_false]; exact hg'⟩

theorem Game.spawn_food_head_x (g : Game) (draws : List (Nat × Nat)) (g' : Game)
    (h : g.spawn_food draws = some g') : g'.head_x = g.head_x := by
  rcases g.spawn_food_spec draws g' h with ⟨x, y, _, _, rfl⟩
  rfl

theorem Game.spawn_food_head_y (g : Game) (draws : List (Nat × Nat)) (g' : Game)
    (h : g.spawn_food draws = some g') : g'.head_y = g.head_y := by
  rcases g.spawn_food_spec draws g' h with ⟨x, y, _, _, rfl⟩
  rfl

/-! ### Characterisations of the four branches of `Game.update` -/

theorem Game.update_of_oob (g : Game) (draws : List (Nat × Nat))
    (h : g.moveHead.oob = true) :
    g.update draws = some { g.moveHead with alive := false } := by
  simp only [Game.update, h, if_true]

theorem Game.update_of_snake (g : Game) (draws : List (Nat × Nat))
    (h1 : g.moveHead.oob = false) (v : Int)
    (h2 : g.moveHead.getTile g.moveHead.head_x g.moveHead.head_y = Tile.Snake v) :
    g.update draws = some { g.moveHead with alive := false } := by
  simp only [Game.update, h1, Bool.false_eq_true, if_false, h2]

theorem Game.update_of_empty (g : Game) (draws : List (Nat × Nat))
    (h1 : g.moveHead.oob = false)
    (h2 : g.moveHead.getTile g.moveHead.head_x g.moveHead.head_y = Tile.Empty) :
    g.update draws =
      some ((g.moveHead.setTile g.moveHead.head_x g.moveHead.head_y
        (Tile.Snake 0)).agePass) := by
  simp only [Game.update, h1, Bool.false_eq_true, if_false, h2]

theorem Game.update_of_food (g : Game) (draws : List (Nat × Nat))
    (h1 : g.moveHead.oob = false)
    (h2 : g.moveHead.getTile g.moveHead.head_x g.moveHead.head_y = Tile.Food) :
    g.update draws =
      (({ g.moveHead with length := g.moveHead.length + 1 }).spawn_food draws).map
        (fun g3 : Game => (g3.setTile g3.head_x g3.head_y (Tile.Snake 0)).agePass) := by
  simp only [Game.update, h1, Bool.false_eq_true, if_false, h2]
  cases ({ g.moveHead with length := g.moveHead.length + 1 }).spawn_food draws <;> rfl

/-- C4: `set_direction d` fails exactly when `d` is the opposite of the
current direction, leaving the state untouched; otherwise it succeeds and
only the direction changes. -/
theorem claim_c4_set_direction (g : Game) (d : Direction) :
    (d = g.direction.opposite → g.set_direction d = (Except.error (), g)) ∧
    (d ≠ g.direction.opposite →
      g.set_direction d = (Except.ok (), { g with direction := d })) := by
  constructor <;> intro h <;> simp [Game.set_direction, h]

theorem claim_c4_witness :
    gWall.set_direction Direction.Right = (Except.error (), gWall) :=
  (claim_c4_set_direction gWall Direction.Right).1 rfl

/-- C3: a tick whose moved head is out of bounds or lands on a snake
segment only clears `alive` and moves the head: the grid, the length, the
direction and the dimensions are all untouched. -/
theorem claim_c3_death_frame (g : Game) (draws : List (Nat × Nat))
    (halive : g.alive = true)
    (hdie : g.moveHead.oob = true ∨
      ∃ v, g.moveHead.getTile g.moveHead.head_x g.moveHead.head_y = Tile.Snake v) :
    ∃ g', g.update draws = some g' ∧ g'.alive = false ∧
      g'.tiles = g.tiles ∧ g'.length = g.length ∧ g'.direction = g.direction ∧
      g'.width = g.width ∧ g'.height = g.height ∧
      g'.head_x = g.moveHead.head_x ∧ g'.head_y = g.moveHead.head_y := by
  refine ⟨{ g.moveHead with alive := false }, ?_, rfl,
    g.moveHead_tiles, g.moveHead_length, g.moveHead_direction,
    g.moveHead_width, g.moveHead_height, rfl, rfl⟩
  by_cases hoob : g.moveHead.oob = true
  · exact g.update_of_oob draws hoob
  · rcases hdie with hdie | ⟨v, hv⟩
    · exact absurd hdie hoob
    · exact g.update_of_snake draws (Bool.not_eq_true _ ▸ hoob) v hv

theorem claim_c3_witness :
    ∃ g', gWall.update [] = some g' ∧ g'.alive = false ∧
      g'.tiles = gWall.tiles ∧ g'.length = gWall.length ∧
      g'.direction = gWall.direction ∧
      g'.width = gWall.width ∧ g'.height = gWall.height ∧
      g'.head_x = gWall.moveHead.head_x ∧ g'.head_y = gWall.moveHead.head_y :=
  claim_c3_death_frame gWall [] rfl (Or.inl (by decide))

/-- C10: `update` never consults the `alive` flag: from a dead state it
still advances the head, and when the moved head is in bounds over an
empty tile the whole normal mutation (head tile write plus age/prune pass)
still runs. -/
theorem claim_c10_dead_tick_runs (g : Game) (draws : List (Nat × Nat))
    (hdead : g.alive = false) :
    (∀ g', g.update draws = some g' →
      g'.head_x = g.moveHead.head_x ∧ g'.head_y = g.moveHead.head_y) ∧
    (g.moveHead.oob = false →
      g.moveHead.getTile g.moveHead.head_x g.moveHead.head_y = Tile.Empty →
      g.update draws =
        some ((g.moveHead.setTile g.moveHead.head_x g.moveHead.head_y
          (Tile.Snake 0)).agePass)) := by
  constructor
  · intro g' hg'
    by_cases hoob : g.moveHead.oob = true
    · rw [g.update_of_oob draws hoob] at hg'
      cases hg'
      exact ⟨rfl, rfl⟩
    · replace hoob := Bool.not_eq_true _ ▸ hoob
      cases htile : g.moveHead.getTile g.moveHead.head_x g.moveHead.head_y with
      | Empty =>
        rw [g.update_of_empty draws hoob htile] at hg'
        cases hg'
        exact ⟨rfl, rfl⟩
      | Food =>
        rw [g.update_of_food draws hoob htile] at hg'
        cases hspawn : ({ g.moveHead with length := g.moveHead.length + 1 }).spawn_food draws with
        | none => rw [hspawn] at hg'; cases hg'
        | some g3 =>
          rw [hspawn] at hg'
          cases hg'
          have hx := Game.spawn_food_head_x _ draws g3 hspawn
          have hy := Game.spawn_food_head_y _ draws g3 hspawn
          exact ⟨hx, hy⟩
      | Snake v =>
        rw [g.update_of_snake draws hoob v htile] at hg'
        cases hg'
        exact ⟨rfl, rfl⟩
  · intro hoob htile
    exact g.update_of_empty draws hoob htile

theorem claim_c10_witness :
    (∀ g', gDead.update [] = some g' →
      g'.head_x = gDead.moveHead.head_x ∧ g'.head_y = gDead.moveHead.head_y) ∧
    (gDead.moveHead.oob = false →
      gDead.moveHead.getTile gDead.moveHead.head_x gDead.moveHead.head_y = Tile.Empty →
      gDead.update [] =
        some ((gDead.moveHead.setTile gDead.moveHead.head_x gDead.moveHead.head_y
          (Tile.Snake 0)).agePass)) :=
  claim_c10_dead_tick_runs gDead [] rfl

/-! ### The age/prune pass on a well-formed grid -/

theorem ageCol_eq_map (L H : Int) :
    ∀ (col : List Tile) (k : Nat), ((k + col.length : Nat) : Int) ≤ H →
      ageCol L H k col = col.map (ageTile L) := by
  intro col
  induction col with
  | nil => intro k _; rfl
  | cons t rest ih =>
    intro k hk
    simp only [List.length_cons] at hk
    have hlt : (k : Int) < H := by push_cast at hk; omega
    simp only [ageCol, List.map_cons]
    rw [if_pos hlt, ih (k + 1) (by push_cast at hk ⊢; omega)]

theorem ageCols_eq_map (L W H : Int) :
    ∀ (tiles : List (List Tile)) (k : Nat), ((k + tiles.length : Nat) : Int) ≤ W →
      (∀ col ∈ tiles, ((col.length : Nat) : Int) ≤ H) →
      ageCols L W H k tiles = tiles.map (List.map (ageTile L)) := by
  intro tiles
  induction tiles with
  | nil => intro k _ _; rfl
  | cons col rest ih =>
    intro k hk hcols
    simp only [List.length_cons] at hk
    have hlt : (k : Int) < W := by push_cast at hk; omega
    simp only [ageCols, List.map_cons]
    rw [if_pos hlt,
      ageCol_eq_map L H col 0 (by simpa using hcols col (List.mem_cons_self col rest)),
      ih (k + 1) (by push_cast at hk ⊢; omega)
        (fun c hc => hcols c (List.mem_cons_of_mem col hc))]

theorem Game.agePass_tiles (g : Game) (hwf : g.wf) :
    g.agePass.tiles = g.tiles.map (List.map (ageTile g.length)) := by
  obtain ⟨hw, hh, hlen, hcols⟩ := hwf
  refine ageCols_eq_map g.length g.width g.height g.tiles 0 ?_ ?_
  · rw [Nat.zero_add, hlen]; omega
  · intro col hcol
    rw [hcols col hcol]; omega

theorem getTileN_map (f : Tile → Tile) (tiles : List (List Tile)) (x y : Nat)
    (hx : x < tiles.length) (hy : y < (tiles.getD x []).length) :
    ((tiles.map (List.map f)).getD x []).getD y Tile.Empty
      = f ((tiles.getD x []).getD y Tile.Empty) := by
  have h2 : tiles.getD x [] = tiles[x] := List.getD_eq_getElem tiles [] hx
  have h1 : (tiles.map (List.map f)).getD x [] = List.map f tiles[x] := by
    rw [List.getD_eq_getElem (tiles.map (List.map f)) [] (by simpa using hx),
      List.getElem_map]
  rw [h2] at hy
  rw [h1, h2,
    List.getD_eq_getElem (List.map f tiles[x]) Tile.Empty (by simpa using hy),
    List.getElem_map, List.getD_eq_getElem tiles[x] Tile.Empty hy]

theorem Game.agePass_getTileN (g : Game) (hwf : g.wf) (x y : Nat)
    (hx : x < g.width.toNat) (hy : y < g.height.toNat) :
    g.agePass.getTileN x y = ageTile g.length (g.getTileN x y) := by
  have hlen := hwf.2.2.1
  have hx' : x < g.tiles.length := by omega
  have hmem : g.tiles.getD x [] ∈ g.tiles := by
    rw [List.getD_eq_getElem _ _ hx']
    exact List.getElem_mem hx'
  have hy' : y < (g.tiles.getD x []).length := by
    rw [hwf.2.2.2 _ hmem]; exact hy
  show (g.agePass.tiles.getD x []).getD y Tile.Empty = _
  rw [g.agePass_tiles hwf]
  exact getTileN_map (ageTile g.length) g.tiles x y hx' hy'

/-! ### Well-formedness preservation -/

theorem Game.wf_moveHead (g : Game) (hwf : g.wf) : g.moveHead.wf := by
  unfold Game.wf at hwf ⊢
  rw [g.moveHead_width, g.moveHead_height, g.moveHead_tiles]
  exact hwf

theorem Game.wf_setTileN (g : Game) (x y : Nat) (t : Tile) (hwf : g.wf) :
    (g.setTileN x y t).wf := by
  obtain ⟨hw, hh, hlen, hcols⟩ := hwf
  by_cases hx : x < g.tiles.length
  · refine ⟨hw, hh, ?_, ?_⟩
    · simpa [Game.setTileN] using hlen
    · intro col hcol
      simp only [Game.setTileN] at hcol
      rcases List.mem_or_eq_of_mem_set hcol with hmem | rfl
      · exact hcols col hmem
      · rw [List.length_set]
        have hmem2 : g.tiles.getD x [] ∈ g.tiles := by
          rw [List.getD_eq_getElem _ _ hx]
          exact List.getElem_mem hx
        exact hcols _ hmem2
  · have hset : g.tiles.set x ((g.tiles.getD x []).set y t) = g.tiles :=
      List.set_eq_of_length_le (by omega)
    refine ⟨hw, hh, ?_, ?_⟩
    · simpa [Game.setTileN, hset] using hlen
    · intro col hcol
      simp only [Game.setTileN, hset] at hcol
      exact hcols col hcol

theorem Game.wf_spawn_food (g : Game) (draws : List (Nat × Nat)) (g' : Game)
    (h : g.spawn_food draws = some g') (hwf : g.wf) : g'.wf := by
  rcases g.spawn_food_spec draws g' h with ⟨x, y, _, _, rfl⟩
  exact g.wf_setTileN x y Tile.Food hwf

theorem ageTile_le (L : Int) (t : Tile) (v : Int)
    (h : ageTile L t = Tile.Snake v) : v ≤ L := by
  cases t with
  | Empty => exact absurd h (by simp [ageTile])
  | Food => exact absurd h (by simp [ageTile])
  | Snake u =>
    simp only [ageTile] at h
    by_cases hu : L ≤ u
    · rw [if_pos hu] at h; cases h
    · rw [if_neg hu] at h
      injection h with h'
      omega

theorem Game.wf_length_update (g : Game) (l : Int) (hwf : g.wf) :
    ({ g with length := l } : Game).wf := by
  unfold Game.wf at hwf ⊢
  exact hwf

/-- C1 (counterexample): in a steady state of length 3 the cell (2,2) holds
`Snake(2)`; its age satisfies `age + 1 ≥ length`, yet the tick leaves it as
`Snake(3)` instead of clearing it. -/
theorem claim_c1_counterexample :
    gSteady.getTile 2 2 = Tile.Snake 2 ∧ gSteady.length = 3 ∧
    gSteady.length ≤ (2 : Int) + 1 ∧
    (gSteady.update []).map (fun g : Game => g.getTile 2 2) = some (Tile.Snake 3) ∧
    Tile.Snake 3 ≠ Tile.Empty := by
  decide

/-- C1 (amended): during the age/prune pass of the tick, a cell tagged
`Snake(age)` becomes `Empty` iff `age ≥ length` (not `age + 1 ≥ length`);
otherwise its age is incremented by 1. -/
theorem claim_c1_age_prune (g : Game) (hwf : g.wf) (x y : Int)
    (hx0 : 0 ≤ x) (hxw : x < g.width) (hy0 : 0 ≤ y) (hyh : y < g.height)
    (v : Int) (hv : g.getTile x y = Tile.Snake v) :
    g.agePass.getTile x y =
      if g.length ≤ v then Tile.Empty else Tile.Snake (v + 1) := by
  show g.agePass.getTileN x.toNat y.toNat = _
  rw [g.agePass_getTileN hwf x.toNat y.toNat (by omega) (by omega)]
  show ageTile g.length (g.getTile x y) = _
  rw [hv]
  rfl

theorem claim_c1_witness :
    gSteady.agePass.getTile 2 2 =
      (if gSteady.length ≤ 2 then Tile.Empty else Tile.Snake (2 + 1)) :=
  claim_c1_age_prune gSteady (by decide) 2 2 (by decide) (by decide) (by decide)
    (by decide) 2 (by decide)

/-- C7 (counterexample): one tick from a steady state of length 3 leaves the
snake alive with a cell tagged `Snake(3)`, so `age < length` fails. -/
theorem claim_c7_counterexample :
    gSteady.update [] = some gSteady2 ∧ gSteady2.alive = true ∧
    gSteady2.getTile 2 2 = Tile.Snake 3 ∧ gSteady2.length = 3 ∧
    ¬((3 : Int) < 3) := by
  decide

/-- C7 (amended): immediately after every tick that leaves the snake alive,
every cell tagged `Snake(age)` satisfies `age ≤ length` (the oldest segment
sits exactly at `age = length` for one tick before being pruned). -/
theorem claim_c7_age_le_length (g : Game) (draws : List (Nat × Nat)) (g' : Game)
    (hwf : g.wf) (h : g.update draws = some g') (halive : g'.alive = true)
    (x y : Int) (hx0 : 0 ≤ x) (hxw : x < g'.width) (hy0 : 0 ≤ y) (hyh : y < g'.height)
    (v : Int) (hv : g'.getTile x y = Tile.Snake v) : v ≤ g'.length := by
  by_cases hoob : g.moveHead.oob = true
  · rw [g.update_of_oob draws hoob] at h
    cases h
    exact absurd halive (by simp)
  · replace hoob := Bool.not_eq_true _ ▸ hoob
    cases htile : g.moveHead.getTile g.moveHead.head_x g.moveHead.head_y with
    | Snake u =>
      rw [g.update_of_snake draws hoob u htile] at h
      cases h
      exact absurd halive (by simp)
    | Empty =>
      rw [g.update_of_empty draws hoob htile] at h
      cases h
      set gs := g.moveHead.setTile g.moveHead.head_x g.moveHead.head_y (Tile.Snake 0)
        with hgs
      have hwfs : gs.wf :=
        Game.wf_setTileN g.moveHead _ _ _ (g.wf_moveHead hwf)
      have hxw' : x < gs.width := hxw
      have hyh' : y < gs.height := hyh
      have hage := gs.agePass_getTileN hwfs x.toNat y.toNat (by omega) (by omega)
      rw [show gs.agePass.getTile x y = gs.agePass.getTileN x.toNat y.toNat from rfl,
        hage] at hv
      exact ageTile_le gs.length _ v hv
    | Food =>
      rw [g.update_of_food draws hoob htile] at h
      cases hspawn : ({ g.moveHead with length := g.moveHead.length + 1 } :
          Game).spawn_food draws with
      | none => rw [hspawn] at h; cases h
      | some g3 =>
        rw [hspawn, Option.map_some'] at h
        cases h
        have hwf3 : g3.wf :=
          Game.wf_spawn_food _ draws g3 hspawn
            (Game.wf_length_update g.moveHead _ (g.wf_moveHead hwf))
        set gs := g3.setTile g3.head_x g3.head_y (Tile.Snake 0) with hgs
        have hwfs : gs.wf := Game.wf_setTileN g3 _ _ _ hwf3
        have hxw' : x < gs.width := hxw
        have hyh' : y < gs.height := hyh
        have hage := gs.agePass_getTileN hwfs x.toNat y.toNat (by omega) (by omega)
        rw [show gs.agePass.getTile x y = gs.agePass.getTileN x.toNat y.toNat from rfl,
          hage] at hv
        exact ageTile_le gs.length _ v hv

theorem claim_c7_witness : (2 : Int) ≤ gSteady2.length :=
  claim_c7_age_le_length gSteady [] gSteady2 (by decide) (by decide) (by decide)
    2 1 (by decide) (by decide) (by decide) (by decide) 2 (by decide)

/-- C8 (counterexample): in the 16×16 scenario (head (8,8), direction Up,
length 3, cell (8,7) unobstructed) the tick leaves tile (8,7) tagged
`Snake(1)`, not `Snake(0)`. -/
theorem claim_c8_counterexample :
    g16.head_x = 8 ∧ g16.head_y = 8 ∧ g16.direction = Direction.Up ∧
    g16.length = 3 ∧ g16.alive = true ∧ g16.getTile 8 7 = Tile.Empty ∧
    (g16.update []).map (fun g : Game => g.getTile 8 7) = some (Tile.Snake 1) ∧
    Tile.Snake 1 ≠ Tile.Snake 0 := by
  decide

/-- C8 (amended): in the 16×16 scenario a single unobstructed tick yields
head (8,7), tile (8,7) tagged `Snake(1)` (written as `Snake(0)` during the
tick, then aged once by the same tick's prune pass), alive still true and
length still 3. -/
theorem claim_c8_scenario :
    (g16.update []).map
        (fun g : Game => (g.head_x, g.head_y, g.getTile 8 7, g.alive, g.length))
      = some (8, 7, Tile.Snake 1, true, 3) := by
  decide

/-- C9: the spawn loop, fed any draw sequence that eventually hits an empty
cell, terminates by marking exactly that cell `Food` and changing nothing
else; on a grid with no empty cell it never returns (no finite sequence of
in-range draws makes it terminate). -/
theorem claim_c9_spawn_food (g : Game) (draws : List (Nat × Nat)) :
    ((∃ p ∈ draws, g.getTileN p.1 p.2 = Tile.Empty) →
      ∃ x y, g.getTileN x y = Tile.Empty ∧
        g.spawn_food draws = some (g.setTileN x y Tile.Food)) ∧
    ((∀ x y, x < g.width.toNat → y < g.height.toNat → g.getTileN x y ≠ Tile.Empty) →
      (∀ p ∈ draws, p.1 < g.width.toNat ∧ p.2 < g.height.toNat) →
      g.spawn_food draws = none) := by
  constructor
  · intro hhit
    rcases g.spawn_food_of_hit draws hhit with ⟨g', hg'⟩
    rcases g.spawn_food_spec draws g' hg' with ⟨x, y, _, hemp, rfl⟩
    exact ⟨x, y, hemp, hg'⟩
  · intro hfull
    induction draws with
    | nil => intro _; rfl
    | cons q rest ih =>
      intro hrange
      have hq := hrange q (List.mem_cons_self q rest)
      have hne := hfull q.1 q.2 hq.1 hq.2
      simp only [Game.spawn_food]
      rw [if_neg hne]
      exact ih (fun p hp => hrange p (List.mem_cons_of_mem q hp))

theorem claim_c9_witness : gFull.spawn_food [(0, 0)] = none :=
  (claim_c9_spawn_food gFull [(0, 0)]).2
    (by
      intro x y hx hy
      have hx0 : x = 0 := by
        have : gFull.width.toNat = 1 := by decide
        omega
      have hy0 : y = 0 := by
        have : gFull.height.toNat = 1 := by decide
        omega
      subst hx0; subst hy0
      decide)
    (by decide)

/-! ### Counting cells through single-tile writes and the age pass -/

theorem set_getD_self (l : List (List Tile)) (n : Nat) (d : List Tile)
    (h : n < l.length) : l.set n (l.getD n d) = l := by
  apply List.ext_getElem?
  intro j
  rw [List.getElem?_set]
  by_cases hnj : n = j
  · subst hnj
    rw [if_pos rfl, if_pos h, List.getD_eq_getElem l d h, List.getElem?_eq_getElem h]
  · rw [if_neg hnj]

theorem countP_set_getD (p : Tile → Bool) (l : List Tile) (n : Nat) (a d : Tile)
    (h : n < l.length) :
    (l.set n a).countP p + (if p (l.getD n d) then 1 else 0)
      = l.countP p + (if p a then 1 else 0) := by
  induction l generalizing n with
  | nil => simp at h
  | cons b l ih =>
    cases n with
    | zero =>
      rw [List.set_cons_zero, List.getD_cons_zero, List.countP_cons, List.countP_cons]
      omega
    | succ n =>
      rw [List.set_cons_succ, List.getD_cons_succ, List.countP_cons, List.countP_cons]
      have := ih n (by simpa using Nat.lt_of_succ_lt_succ h)
      omega

theorem tilesCount_cons (p : Tile → Bool) (col : List Tile) (rest : List (List Tile)) :
    tilesCount p (col :: rest) = col.countP p + tilesCount p rest := by
  simp [tilesCount]

theorem sum_countP_set (p : Tile → Bool) (tiles : List (List Tile)) (n : Nat)
    (c : List Tile) (h : n < tiles.length) :
    tilesCount p (tiles.set n c) + (tiles.getD n []).countP p
      = tilesCount p tiles + c.countP p := by
  induction tiles generalizing n with
  | nil => simp at h
  | cons col rest ih =>
    cases n with
    | zero =>
      rw [List.set_cons_zero, List.getD_cons_zero, tilesCount_cons, tilesCount_cons]
      omega
    | succ n =>
      rw [List.set_cons_succ, List.getD_cons_succ, tilesCount_cons, tilesCount_cons]
      have := ih n (by simpa using Nat.lt_of_succ_lt_succ h)
      omega

theorem Game.tilesCount_setTileN (g : Game) (p : Tile → Bool) (x y : Nat) (t : Tile)
    (hx : x < g.tiles.length) (hy : y < (g.tiles.getD x []).length) :
    tilesCount p (g.setTileN x y t).tiles + (if p (g.getTileN x y) then 1 else 0)
      = tilesCount p g.tiles + (if p t then 1 else 0) := by
  have h1 := sum_countP_set p g.tiles x ((g.tiles.getD x []).set y t) hx
  have h2 := countP_set_getD p (g.tiles.getD x []) y t Tile.Empty hy
  show tilesCount p (g.tiles.set x ((g.tiles.getD x []).set y t)) + _ = _
  unfold Game.getTileN
  omega

theorem Game.tilesCount_setTileN_eq (g : Game) (p : Tile → Bool) (x y : Nat) (t : Tile)
    (hp : p t = p (g.getTileN x y)) :
    tilesCount p (g.setTileN x y t).tiles = tilesCount p g.tiles := by
  by_cases hx : x < g.tiles.length
  · by_cases hy : y < (g.tiles.getD x []).length
    · have h := g.tilesCount_setTileN p x y t hx hy
      rw [hp] at h
      omega
    · have hset : (g.tiles.getD x []).set y t = g.tiles.getD x [] :=
        List.set_eq_of_length_le (by omega)
      show tilesCount p (g.tiles.set x ((g.tiles.getD x []).set y t)) = _
      rw [hset, set_getD_self g.tiles x [] hx]
  · show tilesCount p (g.tiles.set x ((g.tiles.getD x []).set y t)) = _
    rw [List.set_eq_of_length_le (by omega)]

theorem tilesCount_map_inner (p : Tile → Bool) (f : Tile → Tile)
    (tiles : List (List Tile)) :
    tilesCount p (tiles.map (List.map f)) = tilesCount (fun t => p (f t)) tiles := by
  unfold tilesCount
  rw [List.map_map]
  congr 1
  apply List.map_congr_left
  intro col _
  show List.countP p (List.map f col) = _
  rw [List.countP_map]
  rfl

theorem tilesCount_congr_mem (p q : Tile → Bool) (tiles : List (List Tile))
    (h : ∀ col ∈ tiles, ∀ t ∈ col, p t = q t) :
    tilesCount p tiles = tilesCount q tiles := by
  unfold tilesCount
  apply congrArg List.sum
  apply List.map_congr_left
  intro col hcol
  exact List.countP_congr fun t ht => by rw [h col hcol t ht]

theorem countP_or_disj (p q : Tile → Bool) (l : List Tile)
    (hdis : ∀ a, ¬(p a = true ∧ q a = true)) :
    l.countP (fun a => p a || q a) = l.countP p + l.countP q := by
  induction l with
  | nil => rfl
  | cons a l ih =>
    rw [List.countP_cons, List.countP_cons, List.countP_cons, ih]
    cases hpa : p a with
    | true =>
      cases hqa : q a with
      | true => exact absurd ⟨hpa, hqa⟩ (hdis a)
      | false => simp [hpa, hqa]; omega
    | false =>
      cases hqa : q a with
      | true => simp [hpa, hqa]; omega
      | false => simp [hpa, hqa]

theorem tilesCount_or_disj (p q : Tile → Bool) (tiles : List (List Tile))
    (hdis : ∀ a, ¬(p a = true ∧ q a = true)) :
    tilesCount (fun t => p t || q t) tiles = tilesCount p tiles + tilesCount q tiles := by
  induction tiles with
  | nil => rfl
  | cons col rest ih =>
    rw [tilesCount_cons, tilesCount_cons, tilesCount_cons, ih,
      countP_or_disj p q col hdis]
    omega

theorem isSnakeB_eq_young_or_old (L : Int) (t : Tile) :
    Tile.isSnakeB t = (Tile.youngSnake L t || Tile.oldSnake L t) := by
  cases t with
  | Snake v =>
    simp only [Tile.isSnakeB, Tile.youngSnake, Tile.oldSnake, Bool.true_eq,
      Bool.or_eq_true, decide_eq_true_eq]
    omega
  | Empty => rfl
  | Food => rfl

theorem young_old_disjoint (L : Int) :
    ∀ t, ¬(Tile.youngSnake L t = true ∧ Tile.oldSnake L t = true) := by
  intro t
  cases t with
  | Snake v =>
    simp only [Tile.youngSnake, Tile.oldSnake, decide_eq_true_eq, not_and]
    omega
  | Empty => simp [Tile.youngSnake, Tile.oldSnake]
  | Food => simp [Tile.youngSnake, Tile.oldSnake]

theorem isSnakeB_ageTile (L : Int) (t : Tile) :
    Tile.isSnakeB (ageTile L t) = Tile.youngSnake L t := by
  cases t with
  | Snake v =>
    by_cases h : L ≤ v
    · simp only [ageTile, if_pos h, Tile.isSnakeB, Tile.youngSnake]
      symm
      rw [decide_eq_false_iff_not]
      omega
    · simp only [ageTile, if_neg h, Tile.isSnakeB, Tile.youngSnake]
      symm
      rw [decide_eq_true_eq]
      omega
  | Empty => rfl
  | Food => rfl

theorem food_ageTile (L : Int) (t : Tile) :
    decide (ageTile L t = Tile.Food) = decide (t = Tile.Food) := by
  cases t with
  | Snake v => by_cases h : L ≤ v <;> simp [ageTile, h]
  | Empty => rfl
  | Food => rfl

theorem ageOk_young_succ (L : Int) (t : Tile) (hok : Tile.ageOk L t = true) :
    Tile.youngSnake (L + 1) t = Tile.isSnakeB t := by
  cases t with
  | Snake v =>
    simp only [Tile.ageOk, decide_eq_true_eq] at hok
    simp only [Tile.youngSnake, Tile.isSnakeB]
    rw [decide_eq_true_eq.mpr (by omega : v < L + 1)]
  | Empty => rfl
  | Food => rfl

theorem Game.oob_eq_false (g : Game) :
    g.oob = false ↔
      0 ≤ g.head_x ∧ g.head_x < g.width ∧ 0 ≤ g.head_y ∧ g.head_y < g.height := by
  unfold Game.oob
  simp only [Bool.or_eq_false_iff, decide_eq_false_iff_not, not_lt, not_le]
  omega

theorem Game.getTileN_setTileN_self (g : Game) (x y : Nat) (t : Tile)
    (hx : x < g.tiles.length) (hy : y < (g.tiles.getD x []).length) :
    (g.setTileN x y t).getTileN x y = t := by
  unfold Game.getTileN Game.setTileN
  simp only
  rw [List.getD_eq_getElem?_getD (g.tiles.set x ((g.tiles.getD x []).set y t)) x [],
    List.getElem?_set_self (by simpa using hx), Option.getD_some,
    List.getD_eq_getElem?_getD ((g.tiles.getD x []).set y t) y Tile.Empty,
    List.getElem?_set_self (by simpa using hy), Option.getD_some]

theorem Game.getTileN_setTileN_ne (g : Game) (x y x' y' : Nat) (t : Tile)
    (hne : ¬(x = x' ∧ y = y')) :
    (g.setTileN x y t).getTileN x' y' = g.getTileN x' y' := by
  unfold Game.getTileN Game.setTileN
  simp only
  by_cases hx : x = x'
  · subst hx
    have hy : y ≠ y' := fun hy => hne ⟨rfl, hy⟩
    by_cases hlt : x < g.tiles.length
    · rw [List.getD_eq_getElem?_getD (g.tiles.set x _), List.getElem?_set,
        if_pos rfl, if_pos hlt, Option.getD_some,
        List.getD_eq_getElem?_getD ((g.tiles.getD x []).set y t),
        List.getElem?_set_ne hy, ← List.getD_eq_getElem?_getD]
    · rw [List.set_eq_of_length_le (by omega)]
  · rw [List.getD_eq_getElem?_getD (g.tiles.set x _), List.getElem?_set_ne hx,
      ← List.getD_eq_getElem?_getD]


theorem Game.getTileN_congr (g1 g2 : Game) (h : g1.tiles = g2.tiles) (x y : Nat) :
    g1.getTileN x y = g2.getTileN x y := by
  unfold Game.getTileN
  rw [h]

theorem Game.spawn_food_width (g : Game) (draws : List (Nat × Nat)) (g' : Game)
    (h : g.spawn_food draws = some g') : g'.width = g.width := by
  rcases g.spawn_food_spec draws g' h with ⟨x, y, _, _, rfl⟩
  rfl

theorem Game.spawn_food_height (g : Game) (draws : List (Nat × Nat)) (g' : Game)
    (h : g.spawn_food draws = some g') : g'.height = g.height := by
  rcases g.spawn_food_spec draws g' h with ⟨x, y, _, _, rfl⟩
  rfl

theorem Game.spawn_food_length (g : Game) (draws : List (Nat × Nat)) (g' : Game)
    (h : g.spawn_food draws = some g') : g'.length = g.length := by
  rcases g.spawn_food_spec draws g' h with ⟨x, y, _, _, rfl⟩
  rfl

theorem Game.spawn_food_alive (g : Game) (draws : List (Nat × Nat)) (g' : Game)
    (h : g.spawn_food draws = some g') : g'.alive = g.alive := by
  rcases g.spawn_food_spec draws g' h with ⟨x, y, _, _, rfl⟩
  rfl

/-- Writing the new head tile onto a non-snake cell and running the
age/prune pass leaves exactly the young segments plus the fresh head. -/
theorem place_head_count (q : Game) (hwfq : q.wf) (hL : 1 ≤ q.length)
    (hx0 : 0 ≤ q.head_x) (hxw : q.head_x < q.width)
    (hy0 : 0 ≤ q.head_y) (hyh : q.head_y < q.height)
    (hns : Tile.isSnakeB (q.getTileN q.head_x.toNat q.head_y.toNat) = false) :
    ((q.setTile q.head_x q.head_y (Tile.Snake 0)).agePass).snakeCount
      = tilesCount (Tile.youngSnake q.length) q.tiles + 1 := by
  have hxlt : q.head_x.toNat < q.tiles.length := by
    rw [hwfq.2.2.1]
    omega
  have hmemcol : q.tiles.getD q.head_x.toNat [] ∈ q.tiles := by
    rw [List.getD_eq_getElem _ _ hxlt]
    exact List.getElem_mem hxlt
  have hylt : q.head_y.toNat < (q.tiles.getD q.head_x.toNat []).length := by
    rw [hwfq.2.2.2 _ hmemcol]
    omega
  have hwfs : (q.setTileN q.head_x.toNat q.head_y.toNat (Tile.Snake 0)).wf :=
    Game.wf_setTileN q _ _ _ hwfq
  have hyoungF : Tile.youngSnake q.length
      (q.getTileN q.head_x.toNat q.head_y.toNat) = false := by
    cases hcase : q.getTileN q.head_x.toNat q.head_y.toNat with
    | Empty => rfl
    | Food => rfl
    | Snake v =>
      rw [hcase] at hns
      exact absurd hns (by simp [Tile.isSnakeB])
  have hset := Game.tilesCount_setTileN q (Tile.youngSnake q.length)
    q.head_x.toNat q.head_y.toNat (Tile.Snake 0) hxlt hylt
  rw [hyoungF, show Tile.youngSnake q.length (Tile.Snake 0) = true from by
      simp only [Tile.youngSnake, decide_eq_true_eq]; omega] at hset
  simp only [Bool.false_eq_true, if_false, if_true] at hset
  show tilesCount Tile.isSnakeB
    ((q.setTile q.head_x q.head_y (Tile.Snake 0)).agePass).tiles = _
  rw [Game.agePass_tiles _
      (show (q.setTile q.head_x q.head_y (Tile.Snake 0)).wf from hwfs),
    tilesCount_map_inner]
  rw [show (q.setTile q.head_x q.head_y (Tile.Snake 0)).length = q.length from rfl]
  rw [tilesCount_congr_mem _ (Tile.youngSnake q.length) _
    (fun col _ t _ => isSnakeB_ageTile q.length t)]
  rw [show q.setTile q.head_x q.head_y (Tile.Snake 0)
      = q.setTileN q.head_x.toNat q.head_y.toNat (Tile.Snake 0) from rfl]
  omega

/-- C2: once in steady state (segment ages spanning 1..length with exactly
one segment due for pruning), any tick that leaves the snake alive ends
with exactly `length` snake-tagged cells, the new head included. -/
theorem claim_c2_snake_count (g : Game) (draws : List (Nat × Nat)) (g' : Game)
    (hwf : g.wf) (hst : g.steady) (h : g.update draws = some g')
    (halive : g'.alive = true) :
    g'.snakeCount = g'.length.toNat := by
  obtain ⟨hL1, hcount, hold, hok⟩ := hst
  by_cases hoob : g.moveHead.oob = true
  · rw [g.update_of_oob draws hoob] at h
    cases h
    exact absurd halive (by simp)
  · replace hoob := Bool.not_eq_true _ ▸ hoob
    have hbounds := g.moveHead.oob_eq_false.mp hoob
    have hwfm : g.moveHead.wf := g.wf_moveHead hwf
    have htileseq : g.moveHead.tiles = g.tiles := g.moveHead_tiles
    have hlAB : g.moveHead.length = g.length := g.moveHead_length
    have hL1m : 1 ≤ g.moveHead.length := by rw [hlAB]; exact hL1
    have hcount' : tilesCount Tile.isSnakeB g.moveHead.tiles
        = g.moveHead.length.toNat := by
      rw [htileseq, hlAB]
      exact hcount
    have hold' : tilesCount (Tile.oldSnake g.moveHead.length) g.moveHead.tiles = 1 := by
      rw [hlAB, htileseq]
      exact hold
    have hsplit : tilesCount Tile.isSnakeB g.moveHead.tiles
        = tilesCount (Tile.youngSnake g.moveHead.length) g.moveHead.tiles
          + tilesCount (Tile.oldSnake g.moveHead.length) g.moveHead.tiles := by
      rw [tilesCount_congr_mem Tile.isSnakeB
        (fun t => Tile.youngSnake g.moveHead.length t || Tile.oldSnake g.moveHead.length t)
        g.moveHead.tiles
        (fun col _ t _ => isSnakeB_eq_young_or_old g.moveHead.length t)]
      exact tilesCount_or_disj _ _ _ (young_old_disjoint g.moveHead.length)
    cases htile : g.moveHead.getTile g.moveHead.head_x g.moveHead.head_y with
    | Snake u =>
      rw [g.update_of_snake draws hoob u htile] at h
      cases h
      exact absurd halive (by simp)
    | Empty =>
      rw [g.update_of_empty draws hoob htile] at h
      cases h
      show _ = ((g.moveHead.setTile g.moveHead.head_x g.moveHead.head_y
        (Tile.Snake 0)).agePass).length.toNat
      rw [show ((g.moveHead.setTile g.moveHead.head_x g.moveHead.head_y
          (Tile.Snake 0)).agePass).length = g.moveHead.length from rfl]
      rw [place_head_count g.moveHead hwfm hL1m hbounds.1 hbounds.2.1
        hbounds.2.2.1 hbounds.2.2.2
        (by
          have hE : g.moveHead.getTileN g.moveHead.head_x.toNat
              g.moveHead.head_y.toNat = Tile.Empty := htile
          rw [hE]
          rfl)]
      omega
    | Food =>
      rw [g.update_of_food draws hoob htile] at h
      obtain ⟨gf, hgf⟩ : ∃ gf,
          ({ g.moveHead with length := g.moveHead.length + 1 } : Game) = gf :=
        ⟨_, rfl⟩
      rw [hgf] at h
      have hgf_tiles : gf.tiles = g.moveHead.tiles := by rw [← hgf]
      have hgf_len : gf.length = g.moveHead.length + 1 := by rw [← hgf]
      have hgf_hx : gf.head_x = g.moveHead.head_x := by rw [← hgf]
      have hgf_hy : gf.head_y = g.moveHead.head_y := by rw [← hgf]
      have hgf_w : gf.width = g.moveHead.width := by rw [← hgf]
      have hgf_h : gf.height = g.moveHead.height := by rw [← hgf]
      have hwf2 : gf.wf := by
        rw [← hgf]
        exact Game.wf_length_update g.moveHead _ hwfm
      cases hspawn : gf.spawn_food draws with
      | none =>
        rw [hspawn] at h
        cases h
      | some g3 =>
        rw [hspawn, Option.map_some'] at h
        cases h
        have hwf3 : g3.wf := Game.wf_spawn_food gf draws g3 hspawn hwf2
        have h3x : g3.head_x = g.moveHead.head_x := by
          rw [Game.spawn_food_head_x gf draws g3 hspawn, hgf_hx]
        have h3y : g3.head_y = g.moveHead.head_y := by
          rw [Game.spawn_food_head_y gf draws g3 hspawn, hgf_hy]
        have h3w : g3.width = g.moveHead.width := by
          rw [Game.spawn_food_width gf draws g3 hspawn, hgf_w]
        have h3h : g3.height = g.moveHead.height := by
          rw [Game.spawn_food_height gf draws g3 hspawn, hgf_h]
        have h3len : g3.length = g.moveHead.length + 1 := by
          rw [Game.spawn_food_length gf draws g3 hspawn, hgf_len]
        have hheadF : g3.getTileN g.moveHead.head_x.toNat
            g.moveHead.head_y.toNat = Tile.Food := by
          rcases gf.spawn_food_spec draws g3 hspawn with ⟨a, b, hmem, hempty, heq⟩
          have hgfF : gf.getTileN g.moveHead.head_x.toNat
              g.moveHead.head_y.toNat = Tile.Food := by
            rw [Game.getTileN_congr gf g.moveHead hgf_tiles]
            exact htile
          have hne : ¬(a = g.moveHead.head_x.toNat ∧ b = g.moveHead.head_y.toNat) := by
            rintro ⟨rfl, rfl⟩
            rw [hgfF] at hempty
            cases hempty
          rw [heq, Game.getTileN_setTileN_ne gf a b _ _ _ hne]
          exact hgfF
        have hcount3 : tilesCount (Tile.youngSnake (g.moveHead.length + 1)) g3.tiles
            = tilesCount Tile.isSnakeB g.moveHead.tiles := by
          rcases gf.spawn_food_spec draws g3 hspawn with ⟨a, b, hmem, hempty, heq⟩
          rw [heq]
          rw [show (g.moveHead.length + 1) = gf.length from hgf_len.symm]
          rw [Game.tilesCount_setTileN_eq gf _ a b Tile.Food (by rw [hempty]; rfl)]
          rw [show tilesCount (Tile.youngSnake gf.length) gf.tiles
              = tilesCount (Tile.youngSnake (g.moveHead.length + 1)) g.moveHead.tiles from by
            rw [hgf_len, hgf_tiles]]
          apply tilesCount_congr_mem
          intro col hcol t ht
          apply ageOk_young_succ
          rw [hlAB]
          apply hok col _ t ht
          rw [← htileseq]
          exact hcol
        show _ = ((g3.setTile g3.head_x g3.head_y (Tile.Snake 0)).agePass).length.toNat
        rw [show ((g3.setTile g3.head_x g3.head_y (Tile.Snake 0)).agePass).length
            = g3.length from rfl]
        rw [place_head_count g3 hwf3 (by omega) (by omega) (by omega) (by omega)
          (by omega)
          (by
            rw [show g3.getTileN g3.head_x.toNat g3.head_y.toNat
                = g3.getTileN g.moveHead.head_x.toNat g.moveHead.head_y.toNat from by
              rw [h3x, h3y]]
            rw [hheadF]
            rfl)]
        rw [show tilesCount (Tile.youngSnake g3.length) g3.tiles
            = tilesCount (Tile.youngSnake (g.moveHead.length + 1)) g3.tiles from by
          rw [h3len]]
        rw [hcount3]
        omega

theorem claim_c2_witness : gSteady2.snakeCount = gSteady2.length.toNat :=
  claim_c2_snake_count gSteady [] gSteady2 (by decide) (by decide) (by decide)
    (by decide)

/-- C5: an alive tick onto a food cell (with a successful spawn among the
supplied in-range draws) increments `length` by exactly 1, writes the head
cell as a fresh `Snake(0)` before the age/prune pass, and leaves a new
`Food` on a previously empty cell different from the head cell. -/
theorem claim_c5_eat (g : Game) (draws : List (Nat × Nat))
    (hwf : g.wf) (halive : g.alive = true)
    (hoob : g.moveHead.oob = false)
    (htile : g.moveHead.getTile g.moveHead.head_x g.moveHead.head_y = Tile.Food)
    (hdraws : ∀ p ∈ draws, p.1 < g.width.toNat ∧ p.2 < g.height.toNat)
    (hhit : ∃ p ∈ draws, g.getTileN p.1 p.2 = Tile.Empty) :
    ∃ g3 : Game,
      ({ g.moveHead with length := g.moveHead.length + 1 } : Game).spawn_food draws
        = some g3 ∧
      g.update draws
        = some ((g3.setTile g3.head_x g3.head_y (Tile.Snake 0)).agePass) ∧
      g3.length = g.length + 1 ∧
      ((g3.setTile g3.head_x g3.head_y (Tile.Snake 0)).agePass).length
        = g.length + 1 ∧
      (g3.setTile g3.head_x g3.head_y (Tile.Snake 0)).getTileN
        g.moveHead.head_x.toNat g.moveHead.head_y.toNat = Tile.Snake 0 ∧
      ∃ fx fy : Nat,
        g.getTileN fx fy = Tile.Empty ∧
        ¬(fx = g.moveHead.head_x.toNat ∧ fy = g.moveHead.head_y.toNat) ∧
        ((g3.setTile g3.head_x g3.head_y (Tile.Snake 0)).agePass).getTileN fx fy
          = Tile.Food := by
  have hbounds := g.moveHead.oob_eq_false.mp hoob
  have hwfm : g.moveHead.wf := g.wf_moveHead hwf
  have htileseq : g.moveHead.tiles = g.tiles := g.moveHead_tiles
  have hlAB : g.moveHead.length = g.length := g.moveHead_length
  have hwAB : g.moveHead.width = g.width := g.moveHead_width
  have hhAB : g.moveHead.height = g.height := g.moveHead_height
  obtain ⟨gf, hgf⟩ : ∃ gf,
      ({ g.moveHead with length := g.moveHead.length + 1 } : Game) = gf :=
    ⟨_, rfl⟩
  rw [hgf]
  have hgf_tiles : gf.tiles = g.moveHead.tiles := by rw [← hgf]
  have hgf_len : gf.length = g.moveHead.length + 1 := by rw [← hgf]
  have hgf_hx : gf.head_x = g.moveHead.head_x := by rw [← hgf]
  have hgf_hy : gf.head_y = g.moveHead.head_y := by rw [← hgf]
  have hgf_w : gf.width = g.moveHead.width := by rw [← hgf]
  have hgf_h : gf.height = g.moveHead.height := by rw [← hgf]
  have hwf2 : gf.wf := by
    rw [← hgf]
    exact Game.wf_length_update g.moveHead _ hwfm
  have hhit' : ∃ p ∈ draws, gf.getTileN p.1 p.2 = Tile.Empty := by
    rcases hhit with ⟨p, hp, hemp⟩
    refine ⟨p, hp, ?_⟩
    rw [Game.getTileN_congr gf g.moveHead hgf_tiles,
      Game.getTileN_congr g.moveHead g htileseq]
    exact hemp
  rcases gf.spawn_food_of_hit draws hhit' with ⟨g3, hspawn⟩
  have hwf3 : g3.wf := Game.wf_spawn_food gf draws g3 hspawn hwf2
  have h3x : g3.head_x = g.moveHead.head_x := by
    rw [Game.spawn_food_head_x gf draws g3 hspawn, hgf_hx]
  have h3y : g3.head_y = g.moveHead.head_y := by
    rw [Game.spawn_food_head_y gf draws g3 hspawn, hgf_hy]
  have h3w : g3.width = g.moveHead.width := by
    rw [Game.spawn_food_width gf draws g3 hspawn, hgf_w]
  have h3h : g3.height = g.moveHead.height := by
    rw [Game.spawn_food_height gf draws g3 hspawn, hgf_h]
  have h3len : g3.length = g.moveHead.length + 1 := by
    rw [Game.spawn_food_length gf draws g3 hspawn, hgf_len]
  have hxlt3 : g3.head_x.toNat < g3.tiles.length := by
    rw [hwf3.2.2.1, h3x]
    omega
  have hmemcol3 : g3.tiles.getD g3.head_x.toNat [] ∈ g3.tiles := by
    rw [List.getD_eq_getElem _ _ hxlt3]
    exact List.getElem_mem hxlt3
  have hylt3 : g3.head_y.toNat < (g3.tiles.getD g3.head_x.toNat []).length := by
    rw [hwf3.2.2.2 _ hmemcol3, h3y]
    omega
  have hwfs : (g3.setTileN g3.head_x.toNat g3.head_y.toNat (Tile.Snake 0)).wf :=
    Game.wf_setTileN g3 _ _ _ hwf3
  refine ⟨g3, hspawn, ?_, by rw [h3len, hlAB], ?_, ?_, ?_⟩
  · rw [g.update_of_food draws hoob htile, hgf, hspawn, Option.map_some']
  · rw [show ((g3.setTile g3.head_x g3.head_y (Tile.Snake 0)).agePass).length
        = g3.length from rfl, h3len, hlAB]
  · rw [show g3.setTile g3.head_x g3.head_y (Tile.Snake 0)
        = g3.setTileN g3.head_x.toNat g3.head_y.toNat (Tile.Snake 0) from rfl]
    rw [show g.moveHead.head_x.toNat = g3.head_x.toNat from by rw [h3x],
      show g.moveHead.head_y.toNat = g3.head_y.toNat from by rw [h3y]]
    exact Game.getTileN_setTileN_self g3 _ _ _ hxlt3 hylt3
  · rcases gf.spawn_food_spec draws g3 hspawn with ⟨a, b, hmem, hempty, heq⟩
    have hgfF : gf.getTileN g.moveHead.head_x.toNat g.moveHead.head_y.toNat
        = Tile.Food := by
      rw [Game.getTileN_congr gf g.moveHead hgf_tiles]
      exact htile
    have hne : ¬(a = g.moveHead.head_x.toNat ∧ b = g.moveHead.head_y.toNat) := by
      rintro ⟨rfl, rfl⟩
      rw [hgfF] at hempty
      cases hempty
    have hrange := hdraws (a, b) hmem
    refine ⟨a, b, ?_, hne, ?_⟩
    · rw [← Game.getTileN_congr g.moveHead g htileseq,
        ← Game.getTileN_congr gf g.moveHead hgf_tiles]
      exact hempty
    · have hg3ab : g3.getTileN a b = Tile.Food := by
        rw [heq]
        have hxa : a < gf.tiles.length := by
          rw [hwf2.2.2.1, hgf_w, hwAB]
          exact hrange.1
        have hmemcola : gf.tiles.getD a [] ∈ gf.tiles := by
          rw [List.getD_eq_getElem _ _ hxa]
          exact List.getElem_mem hxa
        have hyb : b < (gf.tiles.getD a []).length := by
          rw [hwf2.2.2.2 _ hmemcola, hgf_h, hhAB]
          exact hrange.2
        exact Game.getTileN_setTileN_self gf a b Tile.Food hxa hyb
      have hgs_ab : (g3.setTileN g3.head_x.toNat g3.head_y.toNat
          (Tile.Snake 0)).getTileN a b = Tile.Food := by
        rw [Game.getTileN_setTileN_ne g3 _ _ a b _ (by
          rintro ⟨rfl, rfl⟩
          rw [h3x] at hne
          rw [h3y] at hne
          exact hne ⟨rfl, rfl⟩)]
        exact hg3ab
      rw [show g3.setTile g3.head_x g3.head_y (Tile.Snake 0)
          = g3.setTileN g3.head_x.toNat g3.head_y.toNat (Tile.Snake 0) from rfl]
      rw [Game.agePass_getTileN _ hwfs a b
        (by
          rw [show (g3.setTileN g3.head_x.toNat g3.head_y.toNat
            (Tile.Snake 0)).width = g3.width from rfl, h3w, hwAB]
          exact hrange.1)
        (by
          rw [show (g3.setTileN g3.head_x.toNat g3.head_y.toNat
            (Tile.Snake 0)).height = g3.height from rfl, h3h, hhAB]
          exact hrange.2)]
      rw [hgs_ab]
      rfl

theorem claim_c5_witness :
    ∃ g3 : Game,
      ({ gEat.moveHead with length := gEat.moveHead.length + 1 } : Game).spawn_food
          [(0, 0)] = some g3 ∧
      gEat.update [(0, 0)]
        = some ((g3.setTile g3.head_x g3.head_y (Tile.Snake 0)).agePass) ∧
      g3.length = gEat.length + 1 ∧
      ((g3.setTile g3.head_x g3.head_y (Tile.Snake 0)).agePass).length
        = gEat.length + 1 ∧
      (g3.setTile g3.head_x g3.head_y (Tile.Snake 0)).getTileN
        gEat.moveHead.head_x.toNat gEat.moveHead.head_y.toNat = Tile.Snake 0 ∧
      ∃ fx fy : Nat,
        gEat.getTileN fx fy = Tile.Empty ∧
        ¬(fx = gEat.moveHead.head_x.toNat ∧ fy = gEat.moveHead.head_y.toNat) ∧
        ((g3.setTile g3.head_x g3.head_y (Tile.Snake 0)).agePass).getTileN fx fy
          = Tile.Food :=
  claim_c5_eat gEat [(0, 0)] (by decide) (by decide) (by decide) (by decide)
    (by decide) (by decide)

/-- Writing the new head tile and running the age/prune pass removes one
food cell exactly when the head landed on food, and touches no other food. -/
theorem place_head_foodCount (q : Game) (hwfq : q.wf)
    (hx0 : 0 ≤ q.head_x) (hxw : q.head_x < q.width)
    (hy0 : 0 ≤ q.head_y) (hyh : q.head_y < q.height) :
    ((q.setTile q.head_x q.head_y (Tile.Snake 0)).agePass).foodCount
      + (if q.getTileN q.head_x.toNat q.head_y.toNat = Tile.Food then 1 else 0)
      = tilesCount (fun t => decide (t = Tile.Food)) q.tiles := by
  have hxlt : q.head_x.toNat < q.tiles.length := by
    rw [hwfq.2.2.1]
    omega
  have hmemcol : q.tiles.getD q.head_x.toNat [] ∈ q.tiles := by
    rw [List.getD_eq_getElem _ _ hxlt]
    exact List.getElem_mem hxlt
  have hylt : q.head_y.toNat < (q.tiles.getD q.head_x.toNat []).length := by
    rw [hwfq.2.2.2 _ hmemcol]
    omega
  have hwfs : (q.setTileN q.head_x.toNat q.head_y.toNat (Tile.Snake 0)).wf :=
    Game.wf_setTileN q _ _ _ hwfq
  have hset := Game.tilesCount_setTileN q (fun t => decide (t = Tile.Food))
    q.head_x.toNat q.head_y.toNat (Tile.Snake 0) hxlt hylt
  simp only [decide_eq_true_eq] at hset
  rw [show (if ((Tile.Snake 0 : Tile) = Tile.Food) then (1 : Nat) else 0) = 0 from by
    simp] at hset
  show tilesCount (fun t => decide (t = Tile.Food))
    ((q.setTile q.head_x q.head_y (Tile.Snake 0)).agePass).tiles + _ = _
  rw [Game.agePass_tiles _
      (show (q.setTile q.head_x q.head_y (Tile.Snake 0)).wf from hwfs),
    tilesCount_map_inner]
  rw [show (q.setTile q.head_x q.head_y (Tile.Snake 0)).length = q.length from rfl]
  rw [tilesCount_congr_mem _ (fun t => decide (t = Tile.Food)) _
    (fun col _ t _ => food_ageTile q.length t)]
  rw [show q.setTile q.head_x q.head_y (Tile.Snake 0)
      = q.setTileN q.head_x.toNat q.head_y.toNat (Tile.Snake 0) from rfl]
  omega

/-- C6: food-cell uniqueness: construction establishes exactly one food
cell; `set_direction` never touches the grid; a completed tick preserves
the exactly-one-food property (the transient two-food state between the
spawn and the head write is internal to the tick). -/
theorem claim_c6_food_unique :
    (∀ (w h : Int) (draws : List (Nat × Nat)) (g0 : Game),
      (∀ p ∈ draws, p.1 < w.toNat ∧ p.2 < h.toNat) →
      Game.new w h draws = some g0 → g0.foodCount = 1) ∧
    (∀ (g : Game) (d : Direction),
      ((g.set_direction d).2).foodCount = g.foodCount) ∧
    (∀ (g : Game) (draws : List (Nat × Nat)) (g' : Game),
      g.wf → (∀ p ∈ draws, p.1 < g.width.toNat ∧ p.2 < g.height.toNat) →
      g.foodCount = 1 → g.update draws = some g' → g'.foodCount = 1) := by
  refine ⟨?_, ?_, ?_⟩
  · intro w h draws g0 hdraws hnew
    rcases Game.spawn_food_spec (Game.newBase w h) draws g0 hnew
      with ⟨a, b, hmem, hempty, heq⟩
    have hrange := hdraws (a, b) hmem
    have hxa : a < (Game.newBase w h).tiles.length := by
      show a < (List.replicate w.toNat (List.replicate h.toNat Tile.Empty)).length
      simpa using hrange.1
    have hcola : (Game.newBase w h).tiles.getD a []
        = List.replicate h.toNat Tile.Empty := by
      show (List.replicate w.toNat (List.replicate h.toNat Tile.Empty)).getD a [] = _
      rw [List.getD_eq_getElem _ _ (by simpa using hrange.1), List.getElem_replicate]
    have hyb : b < ((Game.newBase w h).tiles.getD a []).length := by
      rw [hcola, List.length_replicate]
      exact hrange.2
    have hbase : tilesCount (fun t => decide (t = Tile.Food))
        (Game.newBase w h).tiles = 0 := by
      show tilesCount _
        (List.replicate w.toNat (List.replicate h.toNat Tile.Empty)) = 0
      unfold tilesCount
      rw [List.map_replicate, List.countP_eq_zero.mpr (by
        intro t ht
        rw [List.eq_of_mem_replicate ht]
        simp)]
      simp
    have hset := Game.tilesCount_setTileN (Game.newBase w h)
      (fun t => decide (t = Tile.Food)) a b Tile.Food hxa hyb
    rw [hempty] at hset
    simp only [decide_eq_true_eq, if_true] at hset
    rw [if_neg (show ¬(Tile.Empty = Tile.Food) from by simp)] at hset
    show tilesCount (fun t => decide (t = Tile.Food)) g0.tiles = 1
    rw [heq]
    omega
  · intro g d
    unfold Game.set_direction
    by_cases hd : d = g.direction.opposite
    · rw [if_pos hd]
    · rw [if_neg hd]
      rfl
  · intro g draws g' hwf hdraws hfood h
    by_cases hoob : g.moveHead.oob = true
    · rw [g.update_of_oob draws hoob] at h
      cases h
      show tilesCount (fun t => decide (t = Tile.Food)) g.moveHead.tiles = 1
      rw [g.moveHead_tiles]
      exact hfood
    · replace hoob := Bool.not_eq_true _ ▸ hoob
      have hbounds := g.moveHead.oob_eq_false.mp hoob
      have hwfm : g.moveHead.wf := g.wf_moveHead hwf
      have htileseq : g.moveHead.tiles = g.tiles := g.moveHead_tiles
      have hwAB : g.moveHead.width = g.width := g.moveHead_width
      have hhAB : g.moveHead.height = g.height := g.moveHead_height
      cases htile : g.moveHead.getTile g.moveHead.head_x g.moveHead.head_y with
      | Snake u =>
        rw [g.update_of_snake draws hoob u htile] at h
        cases h
        show tilesCount (fun t => decide (t = Tile.Food)) g.moveHead.tiles = 1
        rw [htileseq]
        exact hfood
      | Empty =>
        rw [g.update_of_empty draws hoob htile] at h
        cases h
        have hkey := place_head_foodCount g.moveHead hwfm hbounds.1 hbounds.2.1
          hbounds.2.2.1 hbounds.2.2.2
        have hE : g.moveHead.getTileN g.moveHead.head_x.toNat
            g.moveHead.head_y.toNat = Tile.Empty := htile
        rw [hE, show (if (Tile.Empty = Tile.Food) then (1 : Nat) else 0) = 0 from by
          simp, htileseq] at hkey
        have hfood' : tilesCount (fun t => decide (t = Tile.Food)) g.tiles = 1 :=
          hfood
        omega
      | Food =>
        rw [g.update_of_food draws hoob htile] at h
        obtain ⟨gf, hgf⟩ : ∃ gf,
            ({ g.moveHead with length := g.moveHead.length + 1 } : Game) = gf :=
          ⟨_, rfl⟩
        rw [hgf] at h
        have hgf_tiles : gf.tiles = g.moveHead.tiles := by rw [← hgf]
        have hgf_hx : gf.head_x = g.moveHead.head_x := by rw [← hgf]
        have hgf_hy : gf.head_y = g.moveHead.head_y := by rw [← hgf]
        have hgf_w : gf.width = g.moveHead.width := by rw [← hgf]
        have hgf_h : gf.height = g.moveHead.height := by rw [← hgf]
        have hwf2 : gf.wf := by
          rw [← hgf]
          exact Game.wf_length_update g.moveHead _ hwfm
        cases hspawn : gf.spawn_food draws with
        | none =>
          rw [hspawn] at h
          cases h
        | some g3 =>
          rw [hspawn, Option.map_some'] at h
          cases h
          have hwf3 : g3.wf := Game.wf_spawn_food gf draws g3 hspawn hwf2
          have h3x : g3.head_x = g.moveHead.head_x := by
            rw [Game.spawn_food_head_x gf draws g3 hspawn, hgf_hx]
          have h3y : g3.head_y = g.moveHead.head_y := by
            rw [Game.spawn_food_head_y gf draws g3 hspawn, hgf_hy]
          have h3w : g3.width = g.moveHead.width := by
            rw [Game.spawn_food_width gf draws g3 hspawn, hgf_w]
          have h3h : g3.height = g.moveHead.height := by
            rw [Game.spawn_food_height gf draws g3 hspawn, hgf_h]
          have hheadF : g3.getTileN g.moveHead.head_x.toNat
              g.moveHead.head_y.toNat = Tile.Food := by
            rcases gf.spawn_food_spec draws g3 hspawn with ⟨a, b, hmem, hempty, heq⟩
            have hgfF : gf.getTileN g.moveHead.head_x.toNat
                g.moveHead.head_y.toNat = Tile.Food := by
              rw [Game.getTileN_congr gf g.moveHead hgf_tiles]
              exact htile
            have hne : ¬(a = g.moveHead.head_x.toNat
                ∧ b = g.moveHead.head_y.toNat) := by
              rintro ⟨rfl, rfl⟩
              rw [hgfF] at hempty
              cases hempty
            rw [heq, Game.getTileN_setTileN_ne gf a b _ _ _ hne]
            exact hgfF
          have hfood3 : tilesCount (fun t => decide (t = Tile.Food)) g3.tiles
              = 2 := by
            rcases gf.spawn_food_spec draws g3 hspawn with ⟨a, b, hmem, hempty, heq⟩
            have hrange := hdraws (a, b) hmem
            have hxa : a < gf.tiles.length := by
              rw [hwf2.2.2.1, hgf_w, hwAB]
              exact hrange.1
            have hmemcola : gf.tiles.getD a [] ∈ gf.tiles := by
              rw [List.getD_eq_getElem _ _ hxa]
              exact List.getElem_mem hxa
            have hyb : b < (gf.tiles.getD a []).length := by
              rw [hwf2.2.2.2 _ hmemcola, hgf_h, hhAB]
              exact hrange.2
            have hset := Game.tilesCount_setTileN gf
              (fun t => decide (t = Tile.Food)) a b Tile.Food hxa hyb
            rw [hempty] at hset
            simp only [decide_eq_true_eq, if_true] at hset
            rw [if_neg (show ¬(Tile.Empty = Tile.Food) from by simp)] at hset
            have hgffood : tilesCount (fun t => decide (t = Tile.Food)) gf.tiles
                = 1 := by
              rw [hgf_tiles, htileseq]
              exact hfood
            rw [heq]
            omega
          have hkey := place_head_foodCount g3 hwf3
            (by omega) (by omega) (by omega) (by omega)
          rw [show g3.getTileN g3.head_x.toNat g3.head_y.toNat
              = g3.getTileN g.moveHead.head_x.toNat g.moveHead.head_y.toNat from by
            rw [h3x, h3y], hheadF,
            show (if ((Tile.Food : Tile) = Tile.Food) then (1 : Nat) else 0) = 1
              from by simp, hfood3] at hkey
          omega

theorem claim_c6_witness : gSteady2.foodCount = 1 :=
  claim_c6_food_unique.2.2 gSteady [] gSteady2 (by decide) (by decide) (by decide)
    (by decide)
